import Mathlib

/-!
Shallow embedding of the Task Orchestration & Load-Lifecycle subsystem of
`src/packages/ide/src/client.ts` (class `Client`).

The `task` method is asynchronous; its state mutations happen in three
synchronous segments separated by `await` suspension points:
  * registration (lines 124-133): push the description, start the session
    timer if absent, recompute the progress width;
  * the success tail (lines 141-153): `indexOf`/`splice`, increment
    `finishedTaskCount`, recompute progress, clear the session timer when the
    pending list is empty, return the value;
  * the catch block (lines 154-160): log, paint the progress element red,
    rethrow.
Each segment is embedded as a pure function on `ClientState`.  Numbers are
modelled exactly (`Nat`); `Math.round` on the nonnegative progress ratio is
round-half-up, `jsRound`.  Interleaving of several in-flight invocations is
modelled by a scheduler over `Event`s (`runSchedule`), in which a completion
event is only enabled for an invocation that registered earlier and has not
completed yet — exactly the executions the single-threaded event loop allows.
-/

namespace ClientTs

/-- A timer handle produced by the logger collaborator's `time(budget)`;
only the budget is observable to this module. -/
structure Time where
  budget : Nat
deriving DecidableEq, Repr

/-- `time(budget)` from `@coder/logger`. -/
def time (budget : Nat) : Time := ⟨budget⟩

/-- The `#fill` progress element: its `style.width` percentage and whether
`style.backgroundColor` has been set to `"red"`. -/
structure ProgressElement where
  width : Nat
  backgroundRed : Bool
deriving DecidableEq, Repr

/-- The mutable orchestrator fields of `Client`:
`tasks`, `finishedTaskCount`, `start`, and the optional progress element
(`document.querySelector("#fill")`, absent in headless contexts). -/
structure ClientState where
  tasks : List String
  finishedTaskCount : Nat
  start : Option Time
  progressElement : Option ProgressElement
deriving DecidableEq, Repr

/-- JavaScript `Math.round (num / den)` for nonnegative arguments:
round-half-up, i.e. `⌊num/den + 1/2⌋`. -/
def jsRound (num den : Nat) : Nat := (2 * num + den) / (2 * den)

/-- The width percentage computed on line 130:
`Math.round((finishedTaskCount / (tasks.length + finishedTaskCount)) * 100)`. -/
def progressWidth (finishedTaskCount tasksLength : Nat) : Nat :=
  jsRound (100 * finishedTaskCount) (tasksLength + finishedTaskCount)

/-- The local closure `updateProgress` (lines 128-133): if the progress
element is present, rewrite its width from the current counters. -/
def updateProgress (s : ClientState) : ClientState :=
  match s.progressElement with
  | none => s
  | some pe =>
      let pe1 : ProgressElement :=
        { pe with width := progressWidth s.finishedTaskCount s.tasks.length }
      { s with progressElement := some pe1 }

/-- JavaScript `Array.prototype.indexOf`: index of the first equal element,
`-1` if none. -/
def jsIndexOf (l : List String) (d : String) : Int :=
  match l.findIdx? (· == d) with
  | some i => (i : Int)
  | none => -1

/-- Registration segment of `task` (lines 124-133): push the description,
start the session timer `this.start = time(1000)` if it is unset, and run
`updateProgress`. -/
def registerTask (s : ClientState) (description : String) : ClientState :=
  let s1 : ClientState := { s with tasks := s.tasks ++ [description] }
  let s2 : ClientState :=
    if s1.start.isNone then { s1 with start := some (time 1000) } else s1
  updateProgress s2

/-- Success tail of `task` (lines 142-151): `indexOf` the description,
`splice` it out unless the index is `-1`, increment `finishedTaskCount`,
run `updateProgress`, and clear `this.start` when the pending list is empty. -/
def completeSuccess (s : ClientState) (description : String) : ClientState :=
  let index := jsIndexOf s.tasks description
  let tasks1 := if index != -1 then s.tasks.eraseIdx index.toNat else s.tasks
  let s1 : ClientState :=
    { s with tasks := tasks1, finishedTaskCount := s.finishedTaskCount + 1 }
  let s2 := updateProgress s1
  if s2.tasks.length == 0 then { s2 with start := none } else s2

/-- Catch block of `task` (lines 154-160): paint the progress element red.
No other field is touched; the error is rethrown by the caller of this
segment. -/
def completeFailure (s : ClientState) : ClientState :=
  match s.progressElement with
  | none => s
  | some pe => { s with progressElement := some ({ pe with backgroundRed := true }) }

/-- `Promise.all` over already-settled dependency outcomes: all values in
order, or the rejection.  `awaitDeps [] = .ok []` models line 137's
`Promise.resolve([])` branch for an empty `after`. -/
def awaitDeps {ε ν : Type} : List (Except ε ν) → Except ε (List ν)
  | [] => .ok []
  | .error e :: _ => .error e
  | .ok v :: rest => (awaitDeps rest).map (v :: ·)

/-- A log emission; the `duration` field carries the timer handle logged with
it (`none` both when no duration field is logged and for the failure log's
`"not started"` marker, distinguished by position). -/
inductive LogEntry where
  | info (msg : String) (duration : Option Time) (count : Option Nat)
  | error (msg : String) (duration : Option Time)
deriving DecidableEq, Repr

/-- One complete invocation of `Client.task` run to settlement with no
interleaving: the registration segment, then the dependency wait
(line 137), then the work function, then the success tail or the catch
block.  Returns the final client state, the settlement of the returned
promise, and the log emissions. -/
def task {ε ν α : Type} (s : ClientState) (description : String)
    (duration : Nat) (work : List ν → Except ε α)
    (after : List (Except ε ν)) :
    ClientState × Except ε α × List LogEntry :=
  let s1 := registerTask s description
  match awaitDeps after with
  | .error e =>
      (completeFailure s1, .error e,
        [.error ("Failed \"" ++ description ++ "\"") none])
  | .ok waitFor =>
      let start := time duration
      match work waitFor with
      | .error e =>
          (completeFailure s1, .error e,
            [.info description none none,
             .error ("Failed \"" ++ description ++ "\"") (some start)])
      | .ok value =>
          let s2 := completeSuccess s1 description
          (s2, .ok value,
            [.info description none none,
             .info ("Finished \"" ++ description ++ "\"") (some start) none] ++
            (if s2.tasks.length == 0 then
              [.info "Finished all queued tasks" s1.start (some s2.finishedTaskCount)]
             else []))

/-- A JavaScript `Error` as observed by the lifecycle handler: only
`error.message` is read (lines 92 and 103). -/
structure JSError where
  message : String
deriving DecidableEq, Repr

/-- The `#overlay` element: its `style.opacity` and whether the `"error"`
class has been added. -/
structure Overlay where
  opacity : String
  errorClass : Bool
deriving DecidableEq, Repr

/-- The `.message` element inside the overlay: its `innerText` and the
number of reload buttons appended to its parent. -/
structure MsgElement where
  innerText : String
  reloadButtonCount : Nat
deriving DecidableEq, Repr

/-- The load lifecycle: `Loading` at construction, then the settlement of
`initialize()` selects the terminal state. -/
inductive LifecycleState where
  | Loading
  | Succeeded
  | Failed
deriving DecidableEq, Repr

/-- The DOM pieces the lifecycle handlers touch; each is optional
(lines 50-54: `overlay`, and `msgElement` which exists only under an
overlay). -/
structure LifecycleUI where
  overlay : Option Overlay
  msgElement : Option MsgElement
deriving DecidableEq, Repr

/-- The settlement of `this.initialize().then(...).catch(...)`
(lines 83-107): on resolution fade the overlay out; on rejection add the
`"error"` class, set the message text to
`` `Failed to load: ${error.message}.` `` and append one reload button. -/
def handleInitSettled (ui : LifecycleUI) (r : Except JSError Unit) :
    LifecycleState × LifecycleUI :=
  match r with
  | .ok _ =>
      let overlay1 := ui.overlay.map fun o => { o with opacity := "0" }
      (.Succeeded, { ui with overlay := overlay1 })
  | .error e =>
      let overlay1 := ui.overlay.map fun o => { o with errorClass := true }
      let msg1 := ui.msgElement.map fun m =>
        let t := "Failed to load: " ++ e.message ++ "."
        { m with innerText := t, reloadButtonCount := m.reloadButtonCount + 1 }
      (.Failed, { overlay := overlay1, msgElement := msg1 })

/-!
Interleaved executions.  A system state is the client state together with
the multiset (as a list) of descriptions of invocations that have executed
their registration segment but not yet their completion segment.  The
single-threaded event loop runs segments atomically, in any order in which
a completion is preceded by its own registration; `stepEvent` returns
`none` on schedules that no real execution can produce.
-/

/-- System state for interleaved `task` invocations. -/
structure SysState where
  client : ClientState
  inflight : List String
deriving DecidableEq, Repr

/-- An atomic segment executed by the event loop: a registration, or the
success tail / catch block of an in-flight invocation with the given
description. -/
inductive Event where
  | register (d : String)
  | succeed (d : String)
  | fail (d : String)
deriving DecidableEq, Repr

/-- Execute one atomic segment; `none` if no in-flight invocation with that
description can complete. -/
def stepEvent (σ : SysState) : Event → Option SysState
  | .register d => some ⟨registerTask σ.client d, σ.inflight ++ [d]⟩
  | .succeed d =>
      if d ∈ σ.inflight then
        some ⟨completeSuccess σ.client d, σ.inflight.erase d⟩
      else none
  | .fail d =>
      if d ∈ σ.inflight then
        some ⟨completeFailure σ.client, σ.inflight.erase d⟩
      else none

/-- Run a schedule of atomic segments from a state. -/
def runSchedule (σ : SysState) : List Event → Option SysState
  | [] => some σ
  | e :: es =>
      match stepEvent σ e with
      | some σ1 => runSchedule σ1 es
      | none => none

/-- The state of a freshly constructed client (fields initialised on
lines 39-42), with whatever progress element the document supplies. -/
def initSys (pe : Option ProgressElement) : SysState :=
  ⟨⟨[], 0, none, pe⟩, []⟩

/-! Basic facts about the three segments. -/

theorem updateProgress_tasks (s : ClientState) : (updateProgress s).tasks = s.tasks := by
  cases h : s.progressElement <;> simp [updateProgress, h]

theorem updateProgress_finished (s : ClientState) :
    (updateProgress s).finishedTaskCount = s.finishedTaskCount := by
  cases h : s.progressElement <;> simp [updateProgress, h]

theorem updateProgress_start (s : ClientState) : (updateProgress s).start = s.start := by
  cases h : s.progressElement <;> simp [updateProgress, h]

theorem updateProgress_progressElement (s : ClientState) (pe : ProgressElement)
    (h : s.progressElement = some pe) :
    (updateProgress s).progressElement =
      some ⟨progressWidth s.finishedTaskCount s.tasks.length, pe.backgroundRed⟩ := by
  simp [updateProgress, h]

theorem registerTask_eq (s : ClientState) (d : String) :
    registerTask s d =
      updateProgress
        { s with tasks := s.tasks ++ [d],
                 start := if s.start.isNone then some (time 1000) else s.start } := by
  unfold registerTask
  cases h : s.start <;> simp [h]

theorem registerTask_tasks (s : ClientState) (d : String) :
    (registerTask s d).tasks = s.tasks ++ [d] := by
  rw [registerTask_eq, updateProgress_tasks]

theorem registerTask_finished (s : ClientState) (d : String) :
    (registerTask s d).finishedTaskCount = s.finishedTaskCount := by
  rw [registerTask_eq, updateProgress_finished]

theorem registerTask_start (s : ClientState) (d : String) :
    (registerTask s d).start = if s.start.isNone then some (time 1000) else s.start := by
  rw [registerTask_eq, updateProgress_start]

theorem registerTask_start_isSome (s : ClientState) (d : String) :
    (registerTask s d).start.isSome := by
  rw [registerTask_start]
  cases h : s.start <;> simp [h]

theorem registerTask_progressElement (s : ClientState) (d : String) (pe : ProgressElement)
    (h : s.progressElement = some pe) :
    (registerTask s d).progressElement =
      some ⟨progressWidth s.finishedTaskCount (s.tasks.length + 1), pe.backgroundRed⟩ := by
  rw [registerTask_eq]
  rw [updateProgress_progressElement
    { s with tasks := s.tasks ++ [d],
             start := if s.start.isNone then some (time 1000) else s.start } pe h]
  simp

theorem registerTask_progressElement_none (s : ClientState) (d : String)
    (h : s.progressElement = none) : (registerTask s d).progressElement = none := by
  rw [registerTask_eq]
  simp [updateProgress, h]

theorem jsIndexOf_ne_neg_one_of_mem (l : List String) (d : String) (h : d ∈ l) :
    jsIndexOf l d ≠ -1 := by
  unfold jsIndexOf
  cases hf : l.findIdx? (· == d) with
  | some i => simp
  | none =>
      exfalso
      rw [List.findIdx?_eq_none_iff] at hf
      exact absurd (hf d h) (by simp)

theorem eraseIdx_jsIndexOf (l : List String) (d : String) :
    (if jsIndexOf l d != -1 then l.eraseIdx (jsIndexOf l d).toNat else l) = l.erase d := by
  unfold jsIndexOf
  cases hf : l.findIdx? (· == d) with
  | some i =>
      have hidx : l.indexOf d = i := by
        rw [List.indexOf_eq_indexOf?, List.indexOf?, hf]
      rw [if_pos (by simp only [bne_iff_ne, ne_eq]; omega : (((i : Int) != -1) = true))]
      rw [show ((i : Int)).toNat = i from rfl, ← hidx, List.eraseIdx_indexOf_eq_erase]
  | none =>
      have hnm : d ∉ l := by
        intro hm
        rw [List.findIdx?_eq_none_iff] at hf
        exact absurd (hf d hm) (by simp)
      simp [List.erase_of_not_mem hnm]

theorem completeSuccess_eq (s : ClientState) (d : String) :
    completeSuccess s d =
      (let s2 := updateProgress
        { s with tasks := s.tasks.erase d, finishedTaskCount := s.finishedTaskCount + 1 };
       if (s.tasks.erase d).length = 0 then { s2 with start := none } else s2) := by
  unfold completeSuccess
  simp only [eraseIdx_jsIndexOf, updateProgress_tasks, beq_iff_eq]

theorem completeSuccess_tasks (s : ClientState) (d : String) :
    (completeSuccess s d).tasks = s.tasks.erase d := by
  rw [completeSuccess_eq]
  by_cases hc : (s.tasks.erase d).length = 0 <;> simp [hc, updateProgress_tasks]

theorem completeSuccess_finished (s : ClientState) (d : String) :
    (completeSuccess s d).finishedTaskCount = s.finishedTaskCount + 1 := by
  rw [completeSuccess_eq]
  by_cases hc : (s.tasks.erase d).length = 0 <;> simp [hc, updateProgress_finished]

theorem completeSuccess_start (s : ClientState) (d : String) :
    (completeSuccess s d).start = if s.tasks.erase d = [] then none else s.start := by
  rw [completeSuccess_eq]
  by_cases hc : (s.tasks.erase d).length = 0
  · rw [List.length_eq_zero] at hc
    simp [hc]
  · rw [List.length_eq_zero] at hc
    simp [hc, updateProgress_start]

theorem completeSuccess_progressElement (s : ClientState) (d : String) (pe : ProgressElement)
    (h : s.progressElement = some pe) :
    (completeSuccess s d).progressElement =
      some ⟨progressWidth (s.finishedTaskCount + 1) (s.tasks.erase d).length,
            pe.backgroundRed⟩ := by
  rw [completeSuccess_eq]
  have hup := updateProgress_progressElement
    { s with tasks := s.tasks.erase d, finishedTaskCount := s.finishedTaskCount + 1 } pe h
  simp only at hup
  by_cases hc : (s.tasks.erase d).length = 0
  · rw [hc] at hup
    simp [hc, hup]
  · simp [hc, hup]

theorem completeFailure_tasks (s : ClientState) : (completeFailure s).tasks = s.tasks := by
  cases h : s.progressElement <;> simp [completeFailure, h]

theorem completeFailure_finished (s : ClientState) :
    (completeFailure s).finishedTaskCount = s.finishedTaskCount := by
  cases h : s.progressElement <;> simp [completeFailure, h]

theorem completeFailure_start (s : ClientState) : (completeFailure s).start = s.start := by
  cases h : s.progressElement <;> simp [completeFailure, h]

theorem completeFailure_width (s : ClientState) :
    (completeFailure s).progressElement.map ProgressElement.width =
      s.progressElement.map ProgressElement.width := by
  cases h : s.progressElement <;> simp [completeFailure, h]

theorem completeFailure_red (s : ClientState) (pe : ProgressElement)
    (h : s.progressElement = some pe) :
    (completeFailure s).progressElement = some ⟨pe.width, true⟩ := by
  simp [completeFailure, h]

theorem progressWidth_le_100 (f p : Nat) (h : 1 ≤ p + f) : progressWidth f p ≤ 100 := by
  unfold progressWidth jsRound
  have h2 : 0 < 2 * (p + f) := by omega
  have h3 : 2 * (100 * f) + (p + f) < 101 * (2 * (p + f)) := by omega
  have h4 := (Nat.div_lt_iff_lt_mul h2).mpr (by omega : 2 * (100 * f) + (p + f) < 101 * (2 * (p + f)))
  omega


/-! The inductive invariant of interleaved executions. -/

/-- Every in-flight invocation still has a matching entry in the pending
list, and the session timer is present exactly while the pending list is
non-empty. -/
def Inv (σ : SysState) : Prop :=
  (∀ d, σ.inflight.count d ≤ σ.client.tasks.count d) ∧
  (σ.client.tasks = [] ↔ σ.client.start = none)

theorem Inv_initSys (pe : Option ProgressElement) : Inv (initSys pe) := by
  constructor
  · intro d
    simp [initSys]
  · simp [initSys]

theorem mem_tasks_of_inflight (σ : SysState) (hInv : Inv σ) (d : String)
    (hd : d ∈ σ.inflight) : d ∈ σ.client.tasks := by
  have h1 : 0 < σ.inflight.count d := List.count_pos_iff.mpr hd
  have h2 := hInv.1 d
  exact List.count_pos_iff.mp (by omega)

theorem Inv_step (σ σ1 : SysState) (e : Event) (hInv : Inv σ)
    (h : stepEvent σ e = some σ1) : Inv σ1 := by
  cases e with
  | register d =>
      simp only [stepEvent, Option.some.injEq] at h
      subst h
      constructor
      · intro d2
        simp only [registerTask_tasks, List.count_append]
        have h1 := hInv.1 d2
        have h2 : (List.count d2 [d] : Nat) ≤ 1 := by
          by_cases hdd : d = d2 <;> simp [hdd, List.count_cons]
        omega
      · constructor
        · intro hc
          rw [registerTask_tasks] at hc
          simp at hc
        · intro hc
          have hs := registerTask_start_isSome σ.client d
          rw [hc] at hs
          simp at hs
  | succeed d =>
      simp only [stepEvent] at h
      by_cases hd : d ∈ σ.inflight
      · rw [if_pos hd] at h
        simp only [Option.some.injEq] at h
        subst h
        have hmem := mem_tasks_of_inflight σ hInv d hd
        constructor
        · intro d2
          simp only [completeSuccess_tasks, List.count_erase, beq_iff_eq]
          have h1 := hInv.1 d2
          by_cases hdd : d = d2 <;> simp [hdd] <;> omega
        · rw [completeSuccess_tasks, completeSuccess_start]
          by_cases hc : σ.client.tasks.erase d = []
          · simp [hc]
          · rw [if_neg hc]
            constructor
            · intro hc2
              exact absurd hc2 hc
            · intro hc2
              have htne : ¬ σ.client.tasks = [] := by
                intro ht
                rw [ht] at hmem
                simp at hmem
              exact absurd (hInv.2.mpr hc2) htne
      · rw [if_neg hd] at h
        simp at h
  | fail d =>
      simp only [stepEvent] at h
      by_cases hd : d ∈ σ.inflight
      · rw [if_pos hd] at h
        simp only [Option.some.injEq] at h
        subst h
        constructor
        · intro d2
          simp only [completeFailure_tasks, List.count_erase, beq_iff_eq]
          have h1 := hInv.1 d2
          by_cases hdd : d = d2 <;> simp [hdd] <;> omega
        · rw [completeFailure_tasks, completeFailure_start]
          exact hInv.2
      · rw [if_neg hd] at h
        simp at h

theorem Inv_runSchedule (σ σ1 : SysState) (evs : List Event) (hInv : Inv σ)
    (h : runSchedule σ evs = some σ1) : Inv σ1 := by
  induction evs generalizing σ with
  | nil =>
      simp only [runSchedule, Option.some.injEq] at h
      subst h
      exact hInv
  | cons e es ih =>
      simp only [runSchedule] at h
      cases he : stepEvent σ e with
      | none =>
          rw [he] at h
          simp at h
      | some σ2 =>
          rw [he] at h
          exact ih σ2 (Inv_step σ σ2 e hInv he) h

theorem reachable_Inv (pe : Option ProgressElement) (evs : List Event) (σ : SysState)
    (h : runSchedule (initSys pe) evs = some σ) : Inv σ :=
  Inv_runSchedule (initSys pe) σ evs (Inv_initSys pe) h

/-! Facts about the dependency wait and the assembled `task` run. -/

theorem awaitDeps_eq_ok_iff {ε ν : Type} (after : List (Except ε ν)) (vs : List ν) :
    awaitDeps after = .ok vs ↔ after = vs.map Except.ok := by
  induction after generalizing vs with
  | nil => cases vs <;> simp [awaitDeps]
  | cons hd tl ih =>
      cases hd with
      | error e => cases vs <;> simp [awaitDeps]
      | ok v =>
          cases vs with
          | nil =>
              simp only [awaitDeps, List.map_nil]
              constructor
              · intro h
                cases ha : awaitDeps tl <;> rw [ha] at h <;> simp [Except.map] at h
              · intro h
                exact absurd h (by simp)
          | cons v2 vs2 =>
              simp only [awaitDeps, List.map_cons, List.cons.injEq]
              constructor
              · intro h
                cases ha : awaitDeps tl <;> rw [ha] at h <;> simp [Except.map] at h
                obtain ⟨h1, h2⟩ := h
                exact ⟨by rw [h1], (ih vs2).mp (by rw [ha, h2])⟩
              · rintro ⟨h1, h2⟩
                simp only [Except.ok.injEq] at h1
                subst h1
                rw [(ih vs2).mpr h2]
                simp [Except.map]

theorem task_state_of_success {ε ν α : Type} (s : ClientState) (d : String) (dur : Nat)
    (work : List ν → Except ε α) (after : List (Except ε ν)) (vs : List ν) (v : α)
    (h1 : awaitDeps after = .ok vs) (h2 : work vs = .ok v) :
    (task s d dur work after).1 = completeSuccess (registerTask s d) d := by
  simp only [task, h1, h2]

theorem task_value_of_success {ε ν α : Type} (s : ClientState) (d : String) (dur : Nat)
    (work : List ν → Except ε α) (after : List (Except ε ν)) (vs : List ν) (v : α)
    (h1 : awaitDeps after = .ok vs) (h2 : work vs = .ok v) :
    (task s d dur work after).2.1 = .ok v := by
  simp only [task, h1, h2]

theorem task_of_dep_error {ε ν α : Type} (s : ClientState) (d : String) (dur : Nat)
    (work : List ν → Except ε α) (after : List (Except ε ν)) (e : ε)
    (h1 : awaitDeps after = .error e) :
    (task s d dur work after).1 = completeFailure (registerTask s d) ∧
      (task s d dur work after).2.1 = .error e := by
  simp [task, h1]

theorem task_of_work_error {ε ν α : Type} (s : ClientState) (d : String) (dur : Nat)
    (work : List ν → Except ε α) (after : List (Except ε ν)) (vs : List ν) (e : ε)
    (h1 : awaitDeps after = .ok vs) (h2 : work vs = .error e) :
    (task s d dur work after).1 = completeFailure (registerTask s d) ∧
      (task s d dur work after).2.1 = .error e := by
  simp [task, h1, h2]

theorem task_state_of_error {ε ν α : Type} (s : ClientState) (d : String) (dur : Nat)
    (work : List ν → Except ε α) (after : List (Except ε ν)) (e : ε)
    (h : (task s d dur work after).2.1 = .error e) :
    (task s d dur work after).1 = completeFailure (registerTask s d) := by
  cases ha : awaitDeps after with
  | error e2 => exact (task_of_dep_error s d dur work after e2 ha).1
  | ok vs =>
      cases hw : work vs with
      | error e2 => exact (task_of_work_error s d dur work after vs e2 ha hw).1
      | ok v =>
          rw [task_value_of_success s d dur work after vs v ha hw] at h
          simp at h

/-! The claims. -/

/-- Claim C1: for every `task` invocation run to settlement, if the work
function resolves then exactly one entry equal to this invocation's
description — the first textually matching one — is removed from the pending
list and `finishedTaskCount` is incremented by one; if the work function or
a dependency rejects, the description remains in the pending list and
`finishedTaskCount` is unchanged. -/
theorem C1_success_removes_one_failure_keeps {ε ν α : Type} (s : ClientState)
    (d : String) (dur : Nat) (work : List ν → Except ε α)
    (after : List (Except ε ν)) :
    (∀ vs v, awaitDeps after = .ok vs → work vs = .ok v →
      (task s d dur work after).1.tasks = ((registerTask s d).tasks).erase d ∧
      ((task s d dur work after).1.tasks).count d + 1 =
        ((registerTask s d).tasks).count d ∧
      ((task s d dur work after).1.tasks).length + 1 =
        ((registerTask s d).tasks).length ∧
      (task s d dur work after).1.finishedTaskCount = s.finishedTaskCount + 1) ∧
    (∀ e, (task s d dur work after).2.1 = .error e →
      d ∈ (task s d dur work after).1.tasks ∧
      (task s d dur work after).1.tasks = (registerTask s d).tasks ∧
      (task s d dur work after).1.finishedTaskCount = s.finishedTaskCount) := by
  have hmem : d ∈ (registerTask s d).tasks := by
    rw [registerTask_tasks]
    simp
  constructor
  · intro vs v h1 h2
    rw [task_state_of_success s d dur work after vs v h1 h2]
    refine ⟨completeSuccess_tasks _ d, ?_, ?_, ?_⟩
    · rw [completeSuccess_tasks, List.count_erase_self]
      have hpos : 0 < ((registerTask s d).tasks).count d := List.count_pos_iff.mpr hmem
      omega
    · rw [completeSuccess_tasks, List.length_erase, if_pos hmem]
      have hpos : 0 < ((registerTask s d).tasks).length := by
        rw [registerTask_tasks]
        simp
      omega
    · rw [completeSuccess_finished, registerTask_finished]
  · intro e he
    rw [task_state_of_error s d dur work after e he]
    refine ⟨?_, completeFailure_tasks _, ?_⟩
    · rw [completeFailure_tasks]
      exact hmem
    · rw [completeFailure_finished, registerTask_finished]

theorem C1_witness :
    (task ⟨[], 0, none, some ⟨0, false⟩⟩ "a" 100 (fun _ => Except.ok 5)
        ([] : List (Except Unit Nat))).1.tasks = [] ∧
    (task ⟨[], 0, none, some ⟨0, false⟩⟩ "a" 100 (fun _ => Except.ok 5)
        ([] : List (Except Unit Nat))).1.finishedTaskCount = 1 := by
  have h := (C1_success_removes_one_failure_keeps ⟨[], 0, none, some ⟨0, false⟩⟩ "a" 100
      (fun _ => Except.ok 5) ([] : List (Except Unit Nat))).1 [] 5 rfl rfl
  refine ⟨?_, h.2.2.2⟩
  rw [h.1]
  decide

/-- Claim C2: at every point where the progress indicator is recomputed —
registration (after the push) and the success tail (after the increment) —
`finishedTaskCount` and the pending-list length are nonnegative, the
denominator `tasks.length + finishedTaskCount` is at least 1, and the
recomputed percentage `progressWidth` lies in [0, 100]. -/
theorem C2_progress_bounds (s : ClientState) (d : String) (pe : ProgressElement) :
    0 ≤ (registerTask s d).finishedTaskCount ∧
    0 ≤ ((registerTask s d).tasks).length ∧
    1 ≤ ((registerTask s d).tasks).length + (registerTask s d).finishedTaskCount ∧
    1 ≤ ((completeSuccess s d).tasks).length + (completeSuccess s d).finishedTaskCount ∧
    (∀ f p, 1 ≤ p + f → progressWidth f p ≤ 100) ∧
    (s.progressElement = some pe →
      (registerTask s d).progressElement =
        some ⟨progressWidth s.finishedTaskCount (s.tasks.length + 1), pe.backgroundRed⟩ ∧
      progressWidth s.finishedTaskCount (s.tasks.length + 1) ≤ 100) ∧
    (s.progressElement = some pe →
      (completeSuccess s d).progressElement =
        some ⟨progressWidth (s.finishedTaskCount + 1) ((s.tasks.erase d).length),
              pe.backgroundRed⟩ ∧
      progressWidth (s.finishedTaskCount + 1) ((s.tasks.erase d).length) ≤ 100) := by
  refine ⟨Nat.zero_le _, Nat.zero_le _, ?_, ?_, ?_, ?_, ?_⟩
  · rw [registerTask_tasks]
    simp only [List.length_append, List.length_cons, List.length_nil]
    omega
  · rw [completeSuccess_finished]
    omega
  · intro f p hp
    exact progressWidth_le_100 f p hp
  · intro h
    exact ⟨registerTask_progressElement s d pe h,
      progressWidth_le_100 _ _ (by omega)⟩
  · intro h
    exact ⟨completeSuccess_progressElement s d pe h,
      progressWidth_le_100 _ _ (by omega)⟩

theorem C2_witness :
    (registerTask ⟨[], 0, none, some ⟨0, false⟩⟩ "a").progressElement =
      some ⟨0, false⟩ ∧
    progressWidth 0 1 ≤ 100 := by
  have h := C2_progress_bounds ⟨[], 0, none, some ⟨0, false⟩⟩ "a" ⟨0, false⟩
  have h1 := (h.2.2.2.2.2.1 rfl).1
  have h2 := h.2.2.2.2.1 0 1 (by decide)
  refine ⟨?_, h2⟩
  rw [h1]
  decide

/-- Claim C3 as stated is false on the code: the catch block (lines 154-160)
sets the error marker but contains no `updateProgress()` call.  At the
concrete state below (stale width 0, one pending entry, one finished task)
the failure path leaves the width at 0 although a recompute would write 50,
so no progress recompute is triggered on the failure path. -/
theorem C3_counterexample :
    (completeFailure ⟨["a"], 1, some ⟨1000⟩, some ⟨0, false⟩⟩).progressElement =
      some ⟨0, true⟩ ∧
    progressWidth
      (completeFailure ⟨["a"], 1, some ⟨1000⟩, some ⟨0, false⟩⟩).finishedTaskCount
      ((completeFailure ⟨["a"], 1, some ⟨1000⟩, some ⟨0, false⟩⟩).tasks).length = 50 ∧
    updateProgress (completeFailure ⟨["a"], 1, some ⟨1000⟩, some ⟨0, false⟩⟩) ≠
      completeFailure ⟨["a"], 1, some ⟨1000⟩, some ⟨0, false⟩⟩ := by
  decide

/-- Claim C3 (amended): registration and success trigger a progress
recompute, but the failure path does not — it only sets the visual error
marker and leaves the width exactly as the registration-step recompute
wrote it. -/
theorem C3_failure_no_recompute {ε ν α : Type} (s : ClientState) (d : String)
    (dur : Nat) (work : List ν → Except ε α) (after : List (Except ε ν))
    (pe : ProgressElement) :
    (s.progressElement = some pe →
      (registerTask s d).progressElement =
        some ⟨progressWidth s.finishedTaskCount (s.tasks.length + 1),
              pe.backgroundRed⟩) ∧
    (s.progressElement = some pe →
      (completeSuccess s d).progressElement =
        some ⟨progressWidth (s.finishedTaskCount + 1) ((s.tasks.erase d).length),
              pe.backgroundRed⟩) ∧
    (∀ e, (task s d dur work after).2.1 = .error e →
      ((task s d dur work after).1.progressElement).map ProgressElement.width =
        ((registerTask s d).progressElement).map ProgressElement.width ∧
      (s.progressElement = some pe →
        ∃ w, (task s d dur work after).1.progressElement = some ⟨w, true⟩)) := by
  refine ⟨fun h => registerTask_progressElement s d pe h,
          fun h => completeSuccess_progressElement s d pe h, ?_⟩
  intro e he
  rw [task_state_of_error s d dur work after e he]
  refine ⟨completeFailure_width _, ?_⟩
  intro h
  have hreg := registerTask_progressElement s d pe h
  exact ⟨progressWidth s.finishedTaskCount (s.tasks.length + 1),
    completeFailure_red _ _ hreg⟩

theorem C3_witness :
    ((task ⟨[], 0, none, some ⟨0, false⟩⟩ "a" 100
        (fun _ => (Except.error "boom" : Except String Nat))
        ([] : List (Except String Unit))).1.progressElement).map
      ProgressElement.width =
    ((registerTask ⟨[], 0, none, some ⟨0, false⟩⟩ "a").progressElement).map
      ProgressElement.width := by
  have h := ((C3_failure_no_recompute ⟨[], 0, none, some ⟨0, false⟩⟩ "a" 100
      (fun _ => (Except.error "boom" : Except String Nat))
      ([] : List (Except String Unit)) ⟨0, false⟩).2.2 "boom" rfl).1
  exact h

/-- Claim C4: the promise returned by `task` resolves with exactly the work
function's resolved value, unchanged; and rejects with exactly the original
error of the work function or of the dependency wait, unchanged. -/
theorem C4_outcome_passthrough {ε ν α : Type} (s : ClientState) (d : String)
    (dur : Nat) (work : List ν → Except ε α) (after : List (Except ε ν)) :
    (∀ vs v, awaitDeps after = .ok vs → work vs = .ok v →
      (task s d dur work after).2.1 = .ok v) ∧
    (∀ e, awaitDeps after = .error e →
      (task s d dur work after).2.1 = .error e) ∧
    (∀ vs e, awaitDeps after = .ok vs → work vs = .error e →
      (task s d dur work after).2.1 = .error e) :=
  ⟨fun vs v h1 h2 => task_value_of_success s d dur work after vs v h1 h2,
   fun e h1 => (task_of_dep_error s d dur work after e h1).2,
   fun vs e h1 h2 => (task_of_work_error s d dur work after vs e h1 h2).2⟩

theorem C4_witness :
    (task ⟨[], 0, none, none⟩ "a" 100 (fun _ => (Except.ok 3 : Except String Nat))
        ([] : List (Except String Nat))).2.1 = Except.ok 3 ∧
    (task ⟨[], 0, none, none⟩ "b" 100 (fun _ => (Except.ok 3 : Except String Nat))
        ([Except.error "dep"] : List (Except String Nat))).2.1 = Except.error "dep" :=
  ⟨(C4_outcome_passthrough ⟨[], 0, none, none⟩ "a" 100
      (fun _ => (Except.ok 3 : Except String Nat))
      ([] : List (Except String Nat))).1 [] 3 rfl rfl,
   (C4_outcome_passthrough ⟨[], 0, none, none⟩ "b" 100
      (fun _ => (Except.ok 3 : Except String Nat))
      ([Except.error "dep"] : List (Except String Nat))).2.1 "dep" rfl⟩

/-- Claim C5: the session timer `start` is set at the registration of a task
issued while it is unset and kept otherwise; a successful completion clears
it exactly when it empties the pending list and keeps it otherwise; the
failure path never touches it; and in every reachable state the timer is
present exactly while the pending list is non-empty — in particular it
becomes unset whenever the list returns to empty. -/
theorem C5_session_timer (pe : Option ProgressElement) (evs : List Event)
    (σ : SysState) (s : ClientState) (d : String) (t : Time) :
    (runSchedule (initSys pe) evs = some σ →
      (σ.client.tasks = [] ↔ σ.client.start = none)) ∧
    (s.start = none → (registerTask s d).start = some (time 1000)) ∧
    (s.start = some t → (registerTask s d).start = some t) ∧
    ((completeSuccess s d).tasks = [] → (completeSuccess s d).start = none) ∧
    ((completeSuccess s d).tasks ≠ [] → (completeSuccess s d).start = s.start) ∧
    (completeFailure s).start = s.start := by
  refine ⟨fun h => (reachable_Inv pe evs σ h).2, ?_, ?_, ?_, ?_,
    completeFailure_start s⟩
  · intro h
    rw [registerTask_start, h]
    simp
  · intro h
    rw [registerTask_start, h]
    simp
  · intro h
    rw [completeSuccess_tasks] at h
    rw [completeSuccess_start, if_pos h]
  · intro h
    rw [completeSuccess_tasks] at h
    rw [completeSuccess_start, if_neg h]

theorem C5_witness :
    (registerTask ⟨[], 0, none, none⟩ "a").start = some (time 1000) ∧
    (completeSuccess ⟨["a"], 0, some (time 1000), none⟩ "a").start = none := by
  refine ⟨(C5_session_timer none [] (initSys none) ⟨[], 0, none, none⟩ "a"
      (time 1000)).2.1 rfl, ?_⟩
  exact (C5_session_timer none [] (initSys none)
      ⟨["a"], 0, some (time 1000), none⟩ "a" (time 1000)).2.2.2.1 (by decide)

/-- Claim C6: the description is appended to the pending list at the call,
before the dependency wait, so insertion order equals call order; the
supplied dependency futures are awaited through the single combined wait
`awaitDeps`, which resolves exactly when all of them resolve, with their
values in order; and when none are supplied the wait resolves immediately
and the work function proceeds. -/
theorem C6_registration_order_and_deps {ε ν α : Type} (s : ClientState)
    (d1 d2 : String) (dur : Nat) (work : List ν → Except ε α)
    (after : List (Except ε ν)) (vs : List ν) (v : α) :
    ((registerTask s d1).tasks = s.tasks ++ [d1]) ∧
    ((registerTask (registerTask s d1) d2).tasks = s.tasks ++ [d1, d2]) ∧
    (awaitDeps ([] : List (Except ε ν)) = .ok []) ∧
    (awaitDeps after = .ok vs ↔ after = vs.map Except.ok) ∧
    (work [] = .ok v → (task s d1 dur work []).2.1 = .ok v) := by
  refine ⟨registerTask_tasks s d1, ?_, rfl, awaitDeps_eq_ok_iff after vs, ?_⟩
  · rw [registerTask_tasks, registerTask_tasks s d1, List.append_assoc]
    rfl
  · intro h
    exact task_value_of_success s d1 dur work [] [] v rfl h

theorem C6_witness :
    (registerTask ⟨[], 0, none, none⟩ "x").tasks = ["x"] ∧
    (task ⟨[], 0, none, none⟩ "x" 100 (fun _ => (Except.ok 9 : Except Unit Nat))
        ([] : List (Except Unit Nat))).2.1 = Except.ok 9 := by
  have h := C6_registration_order_and_deps ⟨[], 0, none, none⟩ "x" "y" 100
      (fun _ => (Except.ok 9 : Except Unit Nat)) ([] : List (Except Unit Nat)) [] 9
  refine ⟨?_, h.2.2.2.2 rfl⟩
  rw [h.1]
  rfl

/-- Claim C7: per client instance the lifecycle performs exactly one
terminal transition out of Loading — the handler pair attached to the single
settlement of `initialize()` yields Succeeded exactly on resolution and
Failed exactly on rejection, never Loading and never both; and on rejection
with message `m` it marks the overlay errored, sets the message text to
`"Failed to load: m."`, and appends exactly one reload affordance. -/
theorem C7_lifecycle_single_transition (ui : LifecycleUI) (r : Except JSError Unit)
    (o : Overlay) (m : MsgElement) (e : JSError) :
    ((handleInitSettled ui r).1 ≠ .Loading) ∧
    ((handleInitSettled ui r).1 = .Succeeded ↔ r = .ok ()) ∧
    ((handleInitSettled ui r).1 = .Failed ↔ ∃ e2, r = .error e2) ∧
    (ui.overlay = some o →
      (handleInitSettled ui (.error e)).2.overlay = some ⟨o.opacity, true⟩) ∧
    (ui.msgElement = some m →
      (handleInitSettled ui (.error e)).2.msgElement =
        some ⟨"Failed to load: " ++ e.message ++ ".", m.reloadButtonCount + 1⟩) := by
  refine ⟨?_, ?_, ?_, ?_, ?_⟩
  · cases r <;> simp [handleInitSettled]
  · cases r with
    | ok u => cases u; simp [handleInitSettled]
    | error e2 => simp [handleInitSettled]
  · cases r with
    | ok u => simp [handleInitSettled]
    | error e2 => simp [handleInitSettled]
  · intro h
    simp [handleInitSettled, h]
  · intro h
    simp [handleInitSettled, h]

theorem C7_witness :
    (handleInitSettled ⟨some ⟨"1", false⟩, some ⟨"", 0⟩⟩
        (.error ⟨"net down"⟩)).1 = LifecycleState.Failed ∧
    (handleInitSettled ⟨some ⟨"1", false⟩, some ⟨"", 0⟩⟩
        (.error ⟨"net down"⟩)).2.msgElement =
      some ⟨"Failed to load: net down.", 1⟩ ∧
    (handleInitSettled ⟨some ⟨"1", false⟩, some ⟨"", 0⟩⟩
        (.error ⟨"net down"⟩)).2.overlay = some ⟨"1", true⟩ := by
  have h := C7_lifecycle_single_transition ⟨some ⟨"1", false⟩, some ⟨"", 0⟩⟩
      (.error ⟨"net down"⟩) ⟨"1", false⟩ ⟨"", 0⟩ ⟨"net down"⟩
  refine ⟨(h.2.2.1).mpr ⟨⟨"net down"⟩, rfl⟩, ?_, h.2.2.2.1 rfl⟩
  rw [h.2.2.2.2 rfl]
  decide

/-- Claim C8: the duration-budget argument of `task` is advisory only — for
any two budgets and otherwise identical inputs, the final client state
(pending list, finishedTaskCount, session timer, progress element) and the
settlement of the returned promise are identical; the budget reaches only
the log emissions, never a timeout, preemption, or cancellation. -/
theorem C8_duration_advisory {ε ν α : Type} (s : ClientState) (d : String)
    (dur1 dur2 : Nat) (work : List ν → Except ε α) (after : List (Except ε ν)) :
    (task s d dur1 work after).1 = (task s d dur2 work after).1 ∧
    (task s d dur1 work after).2.1 = (task s d dur2 work after).2.1 := by
  cases ha : awaitDeps after with
  | error e => simp [task, ha]
  | ok vs => cases hw : work vs <;> simp [task, ha, hw]

/-- Claim C9: in every reachable interleaved execution — duplicate
descriptions, interleaved completions and earlier failures included — an
invocation that reaches its success path finds at least one matching pending
entry: `indexOf` never returns -1, the `index === -1` guard branch is
unreachable, and the success shrinks the pending list by exactly one
entry. -/
theorem C9_success_index_found (pe : Option ProgressElement) (evs : List Event)
    (σ : SysState) (d : String)
    (h : runSchedule (initSys pe) evs = some σ) (hd : d ∈ σ.inflight) :
    jsIndexOf σ.client.tasks d ≠ -1 ∧
    d ∈ σ.client.tasks ∧
    ((completeSuccess σ.client d).tasks).length + 1 = (σ.client.tasks).length := by
  have hInv := reachable_Inv pe evs σ h
  have hmem := mem_tasks_of_inflight σ hInv d hd
  refine ⟨jsIndexOf_ne_neg_one_of_mem _ d hmem, hmem, ?_⟩
  rw [completeSuccess_tasks, List.length_erase, if_pos hmem]
  have hpos : 0 < (σ.client.tasks).length := by
    cases hc : σ.client.tasks with
    | nil => rw [hc] at hmem; simp at hmem
    | cons a l => simp
  omega

theorem C9_witness :
    jsIndexOf ["a", "a"] "a" ≠ -1 ∧
    ((completeSuccess ⟨["a", "a"], 0, some (time 1000), some ⟨0, true⟩⟩
        "a").tasks).length + 1 = 2 := by
  have h := C9_success_index_found (some ⟨0, false⟩)
      [.register "a", .register "a", .fail "a"]
      ⟨⟨["a", "a"], 0, some (time 1000), some ⟨0, true⟩⟩, ["a"]⟩ "a" rfl
      (by decide)
  exact ⟨h.1, h.2.2⟩

/-- Claim C10: the failure path is state-atomic — at the moment the promise
returned by `task` rejects, the pending list, `finishedTaskCount`, the
session timer, and the progress width are exactly as the registration
segment left them; only the error color is set on that path. -/
theorem C10_failure_state_atomic {ε ν α : Type} (s : ClientState) (d : String)
    (dur : Nat) (work : List ν → Except ε α) (after : List (Except ε ν))
    (e : ε) (h : (task s d dur work after).2.1 = .error e) :
    (task s d dur work after).1.tasks = (registerTask s d).tasks ∧
    (task s d dur work after).1.finishedTaskCount =
      (registerTask s d).finishedTaskCount ∧
    (task s d dur work after).1.start = (registerTask s d).start ∧
    ((task s d dur work after).1.progressElement).map ProgressElement.width =
      ((registerTask s d).progressElement).map ProgressElement.width := by
  rw [task_state_of_error s d dur work after e h]
  exact ⟨completeFailure_tasks _, completeFailure_finished _,
    completeFailure_start _, completeFailure_width _⟩

theorem C10_witness :
    (task ⟨[], 0, none, some ⟨0, false⟩⟩ "a" 100
        (fun _ => (Except.error "boom" : Except String Nat))
        ([] : List (Except String Unit))).1.tasks =
      (registerTask ⟨[], 0, none, some ⟨0, false⟩⟩ "a").tasks :=
  (C10_failure_state_atomic ⟨[], 0, none, some ⟨0, false⟩⟩ "a" 100
      (fun _ => (Except.error "boom" : Except String Nat))
      ([] : List (Except String Unit)) "boom" rfl).1

end ClientTs
